import Mathlib

/-!
Verification development for the NewsBot RAG chatbot backend.

The Node.js sources are shallowly embedded: each JavaScript module is a Lean
namespace, JS strings are Lean `String`s (or `List Char` of code points where
byte-level encoding matters), fallible calls return `Except JsErr`, and every
external collaborator (vector store, embedding model, language model, Redis)
is a parameter supplying the outcomes of its calls.  Message `id` and
`timestamp` fields generated from `uuid`/`Date` are elided: no stated property
depends on them.
-/

set_option maxRecDepth 4000

/-! ## JavaScript runtime modelling helpers -/

/-- Errors thrown by the embedded JavaScript: a `TypeError` (e.g. invoking a
property that is `undefined`) or an `Error(msg)`. -/
inductive JsErr where
  | typeError (msg : String)
  | jsError (msg : String)
deriving DecidableEq

def JsErr.message : JsErr → String
  | .typeError m => m
  | .jsError m => m

/-- A property of a JS object that is used as a function: either an actual
function of the module, or an absent property (`undefined`), whose invocation
throws a `TypeError` (`... is not a function`). -/
inductive JsFun (α β : Type) where
  | definedFn (f : α → Except JsErr β)
  | undefinedProp

/-- Calling a JS property: a defined function runs; calling `undefined`
throws a `TypeError`. -/
def jsInvoke {α β : Type} : JsFun α β → α → Except JsErr β
  | .definedFn f, a => f a
  | .undefinedProp, _ => .error (.typeError "is not a function")

/-- JS `a || d` for a possibly-absent string `a`: `null`/`undefined` and the
empty string are falsy. -/
def jsOrString (v : Option String) (d : String) : String :=
  match v with
  | some s => if s = "" then d else s
  | none => d

/-- Lookup in a JS `Map` / Redis keyspace modelled as an association list:
first entry with the given key. -/
def mapLookup {α : Type} (m : List (String × α)) (k : String) : Option α :=
  match m with
  | [] => none
  | (k', v) :: rest => if k' = k then some v else mapLookup rest k

/-- JS `Map.set` / Redis `setEx`: replace the entry in place when the key is
present (keeping insertion order), otherwise append. -/
def mapSet {α : Type} (m : List (String × α)) (k : String) (v : α) : List (String × α) :=
  match m with
  | [] => [(k, v)]
  | (k', v') :: rest => if k' = k then (k, v) :: rest else (k', v') :: mapSet rest k v

/-- Deleting the first entry whose value equals `v`, as the socket `disconnect`
handler does when it scans `connectedSessions.entries()` and `break`s after the
first match. -/
def mapDeleteFirstValue (m : List (String × String)) (v : String) : List (String × String) :=
  match m with
  | [] => []
  | (k, w) :: rest => if w = v then rest else (k, w) :: mapDeleteFirstValue rest v

/-! ## UTF-8 and base64, for `Buffer.from(s).toString('base64')` -/

/-- UTF-8 encoding of one Unicode scalar value (the code point of a `Char`),
as `Buffer.from` performs on each character of a JS string. -/
def utf8EncodeChar (c : Char) : List Nat :=
  if c.toNat < 128 then [c.toNat]
  else if c.toNat < 2048 then [192 + c.toNat / 64, 128 + c.toNat % 64]
  else if c.toNat < 65536 then
    [224 + c.toNat / 4096, 128 + c.toNat / 64 % 64, 128 + c.toNat % 64]
  else
    [240 + c.toNat / 262144, 128 + c.toNat / 4096 % 64, 128 + c.toNat / 64 % 64,
      128 + c.toNat % 64]

/-- UTF-8 encoding of a string given as its list of code points. -/
def utf8Encode (l : List Char) : List Nat :=
  (l.map utf8EncodeChar).flatten

/-- Decoder for one UTF-8-encoded scalar value; used only to prove the encoder
injective. -/
def utf8DecodeOne : List Nat → Option (Nat × List Nat)
  | [] => none
  | b0 :: rest =>
    if b0 < 128 then some (b0, rest)
    else if b0 < 224 then
      match rest with
      | b1 :: r => some ((b0 - 192) * 64 + (b1 - 128), r)
      | [] => none
    else if b0 < 240 then
      match rest with
      | b1 :: b2 :: r => some ((b0 - 224) * 4096 + (b1 - 128) * 64 + (b2 - 128), r)
      | _ => none
    else
      match rest with
      | b1 :: b2 :: b3 :: r =>
          some ((b0 - 240) * 262144 + (b1 - 128) * 4096 + (b2 - 128) * 64 + (b3 - 128), r)
      | _ => none

/-- The base64 alphabet used by `Buffer.toString('base64')`. -/
def b64Alphabet : List Char :=
  "ABCDEFGHIJKLMNOPQRSTUVWXYZabcdefghijklmnopqrstuvwxyz0123456789+/".toList

/-- The character encoding a 6-bit group. -/
def b64Char (n : Nat) : Char := b64Alphabet.getD n 'A'

/-- Index of a character in the base64 alphabet; inverse of `b64Char` below 64. -/
def b64CharVal (c : Char) : Nat := List.indexOf c b64Alphabet

/-- Standard base64 with `=` padding over a byte list, as produced by
`Buffer.toString('base64')`. -/
def b64encode : List Nat → List Char
  | [] => []
  | [b1] => [b64Char (b1 / 4), b64Char (b1 % 4 * 16), '=', '=']
  | [b1, b2] => [b64Char (b1 / 4), b64Char (b1 % 4 * 16 + b2 / 16), b64Char (b2 % 16 * 4), '=']
  | b1 :: b2 :: b3 :: rest =>
      b64Char (b1 / 4) :: b64Char (b1 % 4 * 16 + b2 / 16) ::
        b64Char (b2 % 16 * 4 + b3 / 64) :: b64Char (b3 % 64) :: b64encode rest

/-- Base64 decoder; used only to prove the encoder injective. -/
def b64decode : List Char → Option (List Nat)
  | [] => some []
  | c1 :: c2 :: c3 :: c4 :: rest =>
    if c3 = '=' then some [b64CharVal c1 * 4 + b64CharVal c2 / 16]
    else if c4 = '=' then
      some [b64CharVal c1 * 4 + b64CharVal c2 / 16, b64CharVal c2 % 16 * 16 + b64CharVal c3 / 4]
    else
      match b64decode rest with
      | some bs =>
          some ((b64CharVal c1 * 4 + b64CharVal c2 / 16) ::
            (b64CharVal c2 % 16 * 16 + b64CharVal c3 / 4) ::
            (b64CharVal c3 % 4 * 64 + b64CharVal c4) :: bs)
      | none => none
  | _ => none

/-! ## src/services/cacheService.js -/

namespace CacheService

/-- One character of JS `String.prototype.toLowerCase` (the ASCII simple case
mapping; the queries the spec discusses are ASCII). -/
def jsCharToLower (c : Char) : Char :=
  if 65 ≤ c.toNat ∧ c.toNat ≤ 90 then Char.ofNat (c.toNat + 32) else c

/-- The code points stripped by JS `String.prototype.trim` (WhiteSpace and
LineTerminator productions). -/
def jsWhitespaceChar (c : Char) : Bool :=
  c.toNat ∈ [9, 10, 11, 12, 13, 32, 160, 5760, 8192, 8193, 8194, 8195, 8196, 8197,
    8198, 8199, 8200, 8201, 8202, 8232, 8233, 8239, 8287, 12288, 65279]

/-- JS `String.prototype.trim`: strip leading and trailing whitespace. -/
def jsTrim (l : List Char) : List Char :=
  ((l.dropWhile jsWhitespaceChar).reverse.dropWhile jsWhitespaceChar).reverse

/-- `query.toLowerCase().trim()` — the normalization applied before key
derivation. -/
def normalizeQuery (query : List Char) : List Char :=
  jsTrim (query.map jsCharToLower)

/-- `getQueryCacheKey` from cacheService.js:
`query:` followed by `Buffer.from(query.toLowerCase().trim()).toString('base64')`. -/
def getQueryCacheKey (query : List Char) : List Char :=
  "query:".toList ++ b64encode (utf8Encode (normalizeQuery query))

end CacheService

/-! ## src/server.js: safeGenerateContent and processRAGQuery -/

namespace Server

/-- Outcome of one `model.generateContent` attempt: a response whose text is
returned, or a thrown error carrying an HTTP `status`. -/
inductive GenOutcome where
  | ok (text : String)
  | err (status : Nat)

/-- The fixed apology string returned when generation is exhausted. -/
def genApology : String := "⚠️ Sorry, I couldn’t generate a response right now."

/-- The `for (let i = 0; i < retries; i++)` loop body of `safeGenerateContent`.
`gen i` is the outcome of attempt `i`; `fuel` equals `retries - i` so the
recursion is structural.  Returns `some (text, attempts, sleeps)` where
`attempts` counts `model.generateContent` invocations and `sleeps` lists the
backoff delays (in seconds) actually awaited; `none` models falling off the
loop (JS `undefined`), which can happen only when `retries = 0`. -/
def sgcGo (gen : Nat → GenOutcome) (retries : Nat) : Nat → Nat → List Nat →
    Option (String × Nat × List Nat)
  | _, 0, _ => none
  | i, fuel + 1, sleeps =>
    match gen i with
    | .ok t => some (t, i + 1, sleeps)
    | .err s =>
      if s = 503 ∧ i < retries - 1 then
        sgcGo gen retries (i + 1) fuel (sleeps ++ [2 ^ i])
      else if i = retries - 1 then
        some (genApology, i + 1, sleeps)
      else
        sgcGo gen retries (i + 1) fuel sleeps

/-- `safeGenerateContent(model, prompt)` with the default `retries = 3`, the
only way the source calls it. -/
def safeGenerateContent (gen : Nat → GenOutcome) : Option (String × Nat × List Nat) :=
  sgcGo gen 3 0 3 []

/-- Modelled from the amended claim: at most 3 attempts; the first successful
attempt's text is returned; a sleep of `2 ^ i` seconds precedes retry `i + 1`
exactly when attempt `i < 2` failed with status 503 (any other failure on a
non-final attempt retries immediately with no backoff); an error on the final
attempt yields the fixed apology. -/
def sgcSpec (gen : Nat → GenOutcome) : String × Nat × List Nat :=
  match gen 0 with
  | .ok t => (t, 1, [])
  | .err s0 =>
    let sleeps0 : List Nat := if s0 = 503 then [1] else []
    match gen 1 with
    | .ok t => (t, 2, sleeps0)
    | .err s1 =>
      let sleeps1 : List Nat := if s1 = 503 then sleeps0 ++ [2] else sleeps0
      match gen 2 with
      | .ok t => (t, 3, sleeps1)
      | .err _ => (genApology, 3, sleeps1)

/-- A generation behaviour whose first attempt throws a non-503 error and whose
second attempt succeeds. -/
def genCexC3 : Nat → GenOutcome :=
  fun n => if n = 0 then .err 500 else .ok "ok"

/-- A hit returned by `qdrant.client.search` (payload fields the processor
reads). -/
structure SearchHit where
  title : String
  url : String
  summary : String
deriving DecidableEq

/-- An entry of the `sources` list of the response. -/
structure SourceRef where
  title : String
  url : String
deriving DecidableEq

/-- The response object of `processRAGQuery`.  `answer` is `none` when the JS
value would be `undefined`. -/
structure RagResponse where
  answer : Option String
  sources : List SourceRef
  hasRelevantContext : Bool
deriving DecidableEq

/-- The fixed zero-hit answer of `processRAGQuery`. -/
def noRelevantInfoMsg : String :=
  "I couldn’t find any relevant information from the stored news articles."

/-- The grounding prompt template of `processRAGQuery`. -/
def serverRagPrompt (context query : String) : String :=
  "You are a helpful news assistant. Based on the following news articles, provide a concise answer to the user\x27s question.\nIf the articles don\x27t contain the answer, say that you couldn\x27t find relevant information.\n\n--- CONTEXT FROM NEWS ARTICLES ---\n"
    ++ context
    ++ "\n------------------------------------\n\nUser\x27s Question: \"" ++ query ++ "\"\n\nAnswer:"

/-- `processRAGQuery(query, sessionId)` from server.js.  `searchResults` is the
list the vector store returns for the embedded query (`limit: 3`,
`score_threshold: 0.5`); `gen prompt i` is the generation model's outcome for
attempt `i` on `prompt`.  The second component counts `model.generateContent`
invocations. -/
def processRAGQuery (query : String) (searchResults : List SearchHit)
    (gen : String → Nat → GenOutcome) : RagResponse × Nat :=
  if searchResults.length = 0 then
    ({ answer := some noRelevantInfoMsg, sources := [], hasRelevantContext := false }, 0)
  else
    let sources := searchResults.map fun r => { title := r.title, url := r.url : SourceRef }
    let context := String.intercalate "\n\n---\n\n" (searchResults.enum.map fun p =>
      "Article " ++ toString (p.1 + 1) ++ ": " ++ p.2.title ++ "\nContent: " ++ p.2.summary)
    let prompt := serverRagPrompt context query
    match safeGenerateContent (gen prompt) with
    | some (text, attempts, _) =>
        ({ answer := some text, sources := sources, hasRelevantContext := true }, attempts)
    | none => ({ answer := none, sources := sources, hasRelevantContext := true }, 3)

end Server

/-! ## src/config (embeddings.js, gemini.js) and src/services/ragService.js -/

/-- Numeric embedding vector (the claims only concern counts and ordering of
vectors, never float arithmetic, so scalars are modelled as integers). -/
abbrev EmbVector := List Int

namespace EmbeddingsConfig

/-- The object exported by config/embeddings.js is a `GoogleEmbeddingsClient`
instance whose methods are exactly `embed` and `embedSingle`.  ragService.js
calls `embeddings.generateEmbedding(query)`: that property is `undefined`, so
invoking it throws a `TypeError`. -/
def generateEmbedding : JsFun String EmbVector := .undefinedProp

end EmbeddingsConfig

namespace GeminiConfig

/-- config/gemini.js exports `{ model, generateResponse,
generateStreamingResponse }`.  ragService.js calls `gemini.generateAnswer`,
which is not among them: the property is `undefined`, so invoking it throws a
`TypeError`. -/
def generateAnswer : JsFun String String := .undefinedProp

end GeminiConfig

namespace CacheService

/-- The `CacheService` instance exported by cacheService.js declares exactly
the methods `cacheQueryResult`, `getCachedQueryResult`, `getSessionFromCache`,
`updateSessionCache`, `warmCache`, `getQueryCacheKey`, `clearCache` and
`getCacheStats`.  ragService.js calls `cacheService.getCachedResponse`, which
is not among them: the property is `undefined`, so invoking it throws a
`TypeError`. -/
def getCachedResponse : JsFun (String × String) (Option String) := .undefinedProp

/-- ragService.js also calls `cacheService.cacheResponse(sessionId, query,
answer)`, which `CacheService` does not declare either. -/
def cacheResponse : JsFun (String × String × String) Bool := .undefinedProp

end CacheService

namespace RagService

/-- The payload of a document retrieved from Qdrant (`doc.payload` may be
absent, and its fields may be absent or empty). -/
structure DocPayload where
  source : Option String
  content : Option String
deriving DecidableEq

/-- A document returned by `qdrant.client.search` with `with_payload: true`. -/
structure RetrievedDoc where
  payload : Option DocPayload
deriving DecidableEq

/-- Behaviour of the external vector store for this process: the outcome of
`qdrant.client.search` as a function of the query vector and `limit`.
`Except.error` models a thrown connection/timeout error. -/
structure RagSvcEnv where
  search : EmbVector → Nat → Except String (List RetrievedDoc)

/-- A JS value that is either a plain string or a structured response object;
`answerQuery` in ragService.js returns plain strings on every path. -/
inductive RagValue where
  | vstr (s : String)
  | vobj (r : Server.RagResponse)
deriving DecidableEq

/-- Whether a `RagValue` is a response object carrying
`hasRelevantContext = false`, the shape claim C5 expects. -/
def RagValue.isObjWithoutContext : RagValue → Bool
  | .vobj r => r.hasRelevantContext = false
  | .vstr _ => false

/-- `embedQuery` from ragService.js: calls the (undefined)
`embeddings.generateEmbedding`, converting any error into
`Error("Embedding generation failed")`. -/
def embedQuery (query : String) : Except JsErr EmbVector :=
  match jsInvoke EmbeddingsConfig.generateEmbedding query with
  | .ok v => .ok v
  | .error _ => .error (.jsError "Embedding generation failed")

/-- `retrieveRelevantDocs` from ragService.js: a thrown search error is caught
and an empty list returned. -/
def retrieveRelevantDocs (env : RagSvcEnv) (queryEmbedding : EmbVector) (k : Nat) :
    List RetrievedDoc :=
  match env.search queryEmbedding k with
  | .ok results => results
  | .error _ => []

/-- `formatContext` from ragService.js. -/
def formatContext (results : List RetrievedDoc) : String :=
  if results.length = 0 then ""
  else
    String.intercalate "\n\n" (results.enum.map fun p =>
      "Document " ++ toString (p.1 + 1) ++ " [" ++
        jsOrString (p.2.payload.bind (·.source)) "unknown" ++ "]:\n" ++
        jsOrString (p.2.payload.bind (·.content)) "")

/-- The prompt template of `answerQuery`. -/
def ragSvcPrompt (context query : String) : String :=
  "You are a news assistant. Use the following retrieved articles to answer the question.\n\nContext:\n"
    ++ context ++ "\n\nQuestion: " ++ query ++ "\nAnswer:"

/-- The fixed no-context answer of `answerQuery`. -/
def noRelevantNewsMsg : String :=
  "I couldn\x27t find relevant information in the provided news."

/-- The string `answerQuery`'s catch-all returns. -/
def genericFailureMsg : String := "Something went wrong while processing your query."

/-- The cache-miss remainder of `answerQuery`'s `try` block: embed, retrieve,
format, generate, cache. -/
def answerQueryUncached (env : RagSvcEnv) (sessionId query : String) :
    Except JsErr String := do
  let queryEmbedding ← embedQuery query
  let results := retrieveRelevantDocs env queryEmbedding 5
  if results.length = 0 then
    pure noRelevantNewsMsg
  else do
    let context := formatContext results
    let prompt := ragSvcPrompt context query
    let answer ← jsInvoke GeminiConfig.generateAnswer prompt
    let _ ← jsInvoke CacheService.cacheResponse (sessionId, query, answer)
    pure (jsOrString (some answer) noRelevantNewsMsg)

/-- The `try` block of `answerQuery`: first the cache lookup (whose target
method does not exist), then the uncached pipeline; a truthy cached value is
returned directly. -/
def answerQueryBody (env : RagSvcEnv) (sessionId query : String) :
    Except JsErr String := do
  let cached ← jsInvoke CacheService.getCachedResponse (sessionId, query)
  match cached with
  | some c => if c = "" then answerQueryUncached env sessionId query else pure c
  | none => answerQueryUncached env sessionId query

/-- `answerQuery(sessionId, query)` from ragService.js: the `try` block with
its catch-all, which converts every thrown error into the fixed failure
string.  Total — no exception escapes to the caller. -/
def answerQuery (env : RagSvcEnv) (sessionId query : String) : RagValue :=
  match answerQueryBody env sessionId query with
  | .ok s => .vstr s
  | .error _ => .vstr genericFailureMsg

end RagService

/-! ## src/routes/session.js -/

namespace SessionRoutes

/-- The role tag of a stored message. -/
inductive MsgRole where
  | user
  | bot
deriving DecidableEq

/-- A message of a session history (`id` and `timestamp` elided; `content` is
`none` when the JS value stored is `null`). -/
structure ChatMessage where
  role : MsgRole
  content : Option String
deriving DecidableEq

/-- Stored session state (`id`, `createdAt`, `lastActivity` elided). -/
structure Session where
  messages : List ChatMessage
  messageCount : Nat
deriving DecidableEq

/-- The Redis keyspace restricted to `session:*` keys; an absent key models a
missing or TTL-expired session. -/
abbrev SessionStore := List (String × Session)

/-- The fresh session stored by `POST /create`. -/
def freshSession : Session := { messages := [], messageCount := 0 }

/-- `updateSessionActivity(sessionId, userMessage, botResponse)`: absent
session returns `false` without throwing; otherwise pushes a user message,
then a bot message when `botResponse` is truthy, and recomputes
`messageCount` as `messages.length`. -/
def updateSessionActivity (store : SessionStore) (sessionId : String)
    (userMessage : Option String) (botResponse : Option String) : Bool × SessionStore :=
  match mapLookup store sessionId with
  | none => (false, store)
  | some session =>
    let m1 := session.messages ++ [{ role := .user, content := userMessage }]
    let m2 := match botResponse with
      | some b => if b = "" then m1 else m1 ++ [{ role := .bot, content := some b }]
      | none => m1
    (true, mapSet store sessionId { messages := m2, messageCount := m2.length })

/-- The state change of `POST /create` (a fresh `sessionId` is produced by
`uuidv4`; it is passed here as a parameter). -/
def createSession (store : SessionStore) (sessionId : String) : SessionStore :=
  mapSet store sessionId freshSession

/-- The state change of `DELETE /:sessionId`: 404 (`false`) when absent,
otherwise history reset with the id retained. -/
def clearSession (store : SessionStore) (sessionId : String) : Bool × SessionStore :=
  match mapLookup store sessionId with
  | none => (false, store)
  | some _ => (true, mapSet store sessionId { messages := [], messageCount := 0 })

/-- A session-mutating operation, for stating the store-wide invariant. -/
inductive SessionOp where
  | create (sessionId : String)
  | appendTurn (sessionId : String) (userMessage : Option String) (botResponse : Option String)
  | clear (sessionId : String)

/-- Applying one operation to the store. -/
def applySessionOp (store : SessionStore) : SessionOp → SessionStore
  | .create sid => createSession store sid
  | .appendTurn sid u b => (updateSessionActivity store sid u b).2
  | .clear sid => (clearSession store sid).2

/-- Running a sequence of session operations from an empty store. -/
def runSessionOps (ops : List SessionOp) : SessionStore :=
  ops.foldl applySessionOp []

end SessionRoutes

/-! ## src/routes/chat.js (`POST /message`) -/

namespace ChatRoutes

/-- chat.js destructures `{ processRAGQuery, getRelevantContext }` from
ragService.js, but that module exports a `RagService` instance whose methods
are exactly `embedQuery`, `retrieveRelevantDocs`, `formatContext` and
`answerQuery`: the destructured `processRAGQuery` is `undefined`, so calling
it throws a `TypeError`. -/
def processRAGQueryImport : JsFun (String × String) String := .undefinedProp

/-- An HTTP response of the `POST /message` handler (`sessionId` and
`timestamp` echo fields elided). -/
structure HttpResp where
  status : Nat
  success : Bool
  errorMsg : Option String
  responseBody : Option String
deriving DecidableEq

/-- The `POST /message` handler: validate, append the user message
(best-effort), run the RAG pipeline, append the bot response, reply; any
thrown error is caught and turned into a 500. -/
def postMessage (store : SessionRoutes.SessionStore) (message sessionId : String) :
    HttpResp × SessionRoutes.SessionStore :=
  if message = "" ∨ sessionId = "" then
    ({ status := 400, success := false,
       errorMsg := some "Message and sessionId are required", responseBody := none }, store)
  else
    let (_, store1) := SessionRoutes.updateSessionActivity store sessionId (some message) none
    match jsInvoke processRAGQueryImport (message, sessionId) with
    | .error _ =>
        ({ status := 500, success := false,
           errorMsg := some "Failed to process message", responseBody := none }, store1)
    | .ok r =>
        let (_, store2) := SessionRoutes.updateSessionActivity store1 sessionId none (some r)
        ({ status := 200, success := true, errorMsg := none, responseBody := some r }, store2)

end ChatRoutes

/-! ## config/embeddings.js `embed` and scripts/ingestNews.js `createEmbeddings` -/

namespace IngestNews

/-- Behaviour of the upstream `model.batchEmbedContents` call: for a request
list it returns the `embeddings` array (each entry's extracted `values`, with
`none` for an entry whose `values` is missing or not an array) or throws. -/
structure EmbApi where
  batchEmbedContents : List String → Except JsErr (List (Option EmbVector))

/-- `GoogleEmbeddingsClient.embed(texts)` from config/embeddings.js: empty
input short-circuits to `[]`; an upstream throw is re-thrown as
`Error("Failed to create embeddings")`; otherwise the upstream vectors are
returned as-is — note there is no count check at this layer. -/
def embed (api : EmbApi) (texts : List String) : Except JsErr (List (Option EmbVector)) :=
  if texts.length = 0 then .ok []
  else
    match api.batchEmbedContents texts with
    | .ok embs => .ok embs
    | .error _ => .error (.jsError "Failed to create embeddings")

/-- An article as batched by `createEmbeddings` (fields used to build the
embedded text). -/
structure NewsArticle where
  title : String
  summary : String
  content : String
deriving DecidableEq

/-- JS `s.substring(0, n)` (code-point approximation of UTF-16 units). -/
def jsSubstringTo (s : String) (n : Nat) : String := s.take n

/-- The text embedded for one article:
`` `${title}\n\n${summary}\n\n${content.substring(0,1500)}`.substring(0, 8000) ``. -/
def articleEmbedText (a : NewsArticle) : String :=
  jsSubstringTo (a.title ++ "\n\n" ++ a.summary ++ "\n\n" ++ jsSubstringTo a.content 1500) 8000

/-- An article after the embedding step of `createEmbeddings` (metadata fields
other than the embedding and error elided). -/
structure EmbeddedArticle where
  title : String
  embedding : Option EmbVector
  embeddingError : Option String
deriving DecidableEq

/-- The batch-mismatch error message thrown by the added validation check. -/
def mismatchMsg (got want : Nat) : String :=
  "API returned " ++ toString got ++ " embeddings for a batch of " ++ toString want ++
    " articles. Mismatch occurred."

/-- The per-article invalid-embedding message. -/
def invalidEmbMsg : String := "Invalid embedding received from API for this article."

/-- One iteration of the `createEmbeddings` batch loop in ingestNews.js: embed
the batch texts; a thrown error (including the count-mismatch validation
throw) is caught by the per-batch `catch`, which records every article of the
batch with `embedding: null` and the error message; on a count match the
vectors are zipped to the articles by index. -/
def processEmbeddingBatch (api : EmbApi) (batch : List NewsArticle) : List EmbeddedArticle :=
  match embed api (batch.map articleEmbedText) with
  | .error e => batch.map fun a => { title := a.title, embedding := none, embeddingError := some e.message }
  | .ok embs =>
    if embs.length ≠ batch.length then
      batch.map fun a =>
        { title := a.title, embedding := none,
          embeddingError := some (mismatchMsg embs.length batch.length) }
    else
      (batch.zip embs).map fun p =>
        match p.2 with
        | none => { title := p.1.title, embedding := none, embeddingError := some invalidEmbMsg }
        | some v => { title := p.1.title, embedding := some v, embeddingError := none }

end IngestNews

/-! ## src/server.js Socket.IO layer (`join-session` / `disconnect`) -/

namespace SocketLayer

/-- Connection-level events affecting the session-binding state. -/
inductive SockEvent where
  | connect (socketId : String)
  | joinSession (socketId : String) (sessionId : String)
  | disconnect (socketId : String)

/-- The socket server's state: live socket ids, session-room memberships
(`(sessionId, socketId)` pairs; each socket's private own-id room is implicit),
and the `connectedSessions` map from session id to the bound socket id. -/
structure SockState where
  live : List String
  rooms : List (String × String)
  connectedSessions : List (String × String)

/-- The initial state: no connections. -/
def initialSockState : SockState := { live := [], rooms := [], connectedSessions := [] }

/-- One event step, following the server.js handlers.  `join-session`: the
joining socket leaves every room other than its own; if `connectedSessions`
already binds the session to a socket that is still connected, that socket is
made to leave the session's room; then the joiner joins and the binding is
replaced.  `disconnect`: the socket is removed (Socket.IO removes it from its
rooms) and the first `connectedSessions` entry bound to it is deleted. -/
def applySockEvent (st : SockState) : SockEvent → SockState
  | .connect sid =>
      if sid ∈ st.live then st else { st with live := sid :: st.live }
  | .joinSession sid sessionId =>
      if sid ∈ st.live then
        let rooms1 := st.rooms.filter fun p => p.2 ≠ sid
        let rooms2 := match mapLookup st.connectedSessions sessionId with
          | some existingSocketId =>
              if existingSocketId ∈ st.live then
                rooms1.filter fun p => p ≠ (sessionId, existingSocketId)
              else rooms1
          | none => rooms1
        { st with
            rooms := (sessionId, sid) :: rooms2,
            connectedSessions := mapSet st.connectedSessions sessionId sid }
      else st
  | .disconnect sid =>
      { live := st.live.erase sid,
        rooms := st.rooms.filter fun p => p.2 ≠ sid,
        connectedSessions := mapDeleteFirstValue st.connectedSessions sid }

/-- Running a sequence of events from the initial state. -/
def runSock (events : List SockEvent) : SockState :=
  events.foldl applySockEvent initialSockState

/-- The delivery group of session `S`: the sockets that would receive an
`io.to(S)`-style emission, i.e. the members of room `S`. -/
def deliveryGroup (st : SockState) (sessionId : String) : List String :=
  (st.rooms.filter fun p => p.1 = sessionId).map fun p => p.2

/-- The binding/room invariant: a session room's members are exactly bound by
`connectedSessions`, and all room members are live. -/
def SockInv (st : SockState) : Prop :=
  (∀ S x, (S, x) ∈ st.rooms → mapLookup st.connectedSessions S = some x)
  ∧ (∀ S x, (S, x) ∈ st.rooms → x ∈ st.live)

end SocketLayer

/-! ## Theorems -/

/-- C1: for every query for which the vector search returns zero hits,
`processRAGQuery` returns the fixed "no relevant information" answer with
`hasRelevantContext = false` and an empty source list, and performs zero
`model.generateContent` invocations. -/
theorem processRAGQuery_zero_hits (query : String) (gen : String → Nat → Server.GenOutcome) :
    Server.processRAGQuery query [] gen =
      ({ answer := some Server.noRelevantInfoMsg, sources := [], hasRelevantContext := false }, 0) :=
  rfl

/-- C2 (code bug): `answerQuery` begins by calling
`cacheService.getCachedResponse`, a method `CacheService` does not define; the
resulting `TypeError` is swallowed by the catch-all, so every call — first or
repeated, any session, any query, any store state — returns the fixed failure
string.  No call is ever answered from cache, nothing is ever tagged
`fromCache`, and no result is ever cached. -/
theorem answerQuery_always_generic_failure (env : RagService.RagSvcEnv)
    (sessionId query : String) :
    RagService.answerQuery env sessionId query = .vstr RagService.genericFailureMsg :=
  rfl

/-- C3 counterexample: on a behaviour whose first attempt fails with a non-503
error (status 500) and whose second attempt succeeds, `safeGenerateContent`
performs a second attempt (2 invocations) and returns its text — it retries on
a non-transient error instead of returning the fixed apology. -/
theorem safeGenerateContent_non503_retry_cex :
    Server.safeGenerateContent Server.genCexC3 = some ("ok", 2, [])
    ∧ ("ok" : String) ≠ Server.genApology := by
  exact ⟨rfl, by decide⟩

/-- C3 amended: `safeGenerateContent` always returns text (never throws),
makes at most 3 attempts, sleeps `2 ^ i` seconds before retry `i + 1` exactly
when attempt `i < 2` failed with status 503 (other failures on non-final
attempts retry immediately without backoff), returns the first success's text,
and returns the fixed apology only when the final attempt fails — as captured
exactly by `sgcSpec`. -/
theorem safeGenerateContent_amended (gen : Nat → Server.GenOutcome) :
    Server.safeGenerateContent gen = some (Server.sgcSpec gen)
    ∧ 1 ≤ (Server.sgcSpec gen).2.1 ∧ (Server.sgcSpec gen).2.1 ≤ 3 := by
  refine ⟨?_, ?_⟩
  · show Server.sgcGo gen 3 0 3 [] = some (Server.sgcSpec gen)
    cases h0 : gen 0 with
    | ok t => simp [Server.sgcGo, Server.sgcSpec, h0]
    | err s0 =>
      cases h1 : gen 1 with
      | ok t =>
        by_cases hs0 : s0 = 503 <;>
          simp [Server.sgcGo, Server.sgcSpec, h0, h1, hs0]
      | err s1 =>
        cases h2 : gen 2 with
        | ok t =>
          by_cases hs0 : s0 = 503 <;> by_cases hs1 : s1 = 503 <;>
            simp [Server.sgcGo, Server.sgcSpec, h0, h1, h2, hs0, hs1]
        | err s2 =>
          by_cases hs0 : s0 = 503 <;> by_cases hs1 : s1 = 503 <;>
            simp [Server.sgcGo, Server.sgcSpec, h0, h1, h2, hs0, hs1]
  · unfold Server.sgcSpec
    cases gen 0 <;> cases gen 1 <;> cases gen 2 <;> simp

/-- C4 (code bug): with an existing empty-history session, `POST /message`
replies 500 `Failed to process message` (the `processRAGQuery` imported from
ragService.js is `undefined`, so calling it throws), the response carries no
answer, and the session history afterwards holds exactly one message — the
user message, no bot message. -/
theorem postMessage_fresh_session_fails :
    ChatRoutes.postMessage [("sess-1", SessionRoutes.freshSession)] "What happened today?" "sess-1"
      = ({ status := 500, success := false, errorMsg := some "Failed to process message",
           responseBody := none },
         [("sess-1",
           { messages := [{ role := .user, content := some "What happened today?" }],
             messageCount := 1 })]) :=
  rfl

/-- C5 counterexample: with the vector store failing (search throws),
`answerQuery` returns the plain string `Something went wrong while processing
your query.` — not a response object with `hasRelevantContext = false`, and
not the "no relevant information" treatment of an empty context. -/
theorem answerQuery_vector_failure_cex :
    RagService.answerQuery ⟨fun _ _ => .error "connect ECONNREFUSED"⟩ "s1" "ukraine"
        = .vstr RagService.genericFailureMsg
    ∧ (RagService.answerQuery ⟨fun _ _ => .error "connect ECONNREFUSED"⟩ "s1"
        "ukraine").isObjWithoutContext = false
    ∧ RagService.genericFailureMsg ≠ RagService.noRelevantNewsMsg := by
  exact ⟨rfl, rfl, by decide⟩

/-- C5 amended: when the vector store search throws, `retrieveRelevantDocs`
swallows the error and returns an empty list, and `answerQuery` still returns
a string without raising to the transport — in the current code the fixed
failure string (the cache-lookup `TypeError` preempts retrieval), a plain
string rather than an object carrying `hasRelevantContext`. -/
theorem answerQuery_vector_store_failure (env : RagService.RagSvcEnv)
    (sessionId query : String) (v : EmbVector) (k : Nat) (e : String)
    (hs : env.search v k = .error e) :
    RagService.retrieveRelevantDocs env v k = []
    ∧ RagService.answerQuery env sessionId query = .vstr RagService.genericFailureMsg := by
  constructor
  · unfold RagService.retrieveRelevantDocs
    rw [hs]
  · rfl

/-- Witness for `answerQuery_vector_store_failure` at a concrete failing
store. -/
theorem answerQuery_vector_store_failure_witness :
    RagService.retrieveRelevantDocs ⟨fun _ _ => .error "timeout"⟩ [] 5 = []
    ∧ RagService.answerQuery ⟨fun _ _ => .error "timeout"⟩ "s" "q"
        = .vstr RagService.genericFailureMsg :=
  answerQuery_vector_store_failure ⟨fun _ _ => .error "timeout"⟩ "s" "q" [] 5 "timeout" rfl

/-- C8 (code bug): a turn on an absent or expired session id is silently
dropped — `updateSessionActivity` reports `false` without raising and leaves
the store unchanged — and nothing propagates a session error to the message
handler; but the handler's reply is the 500 failure body with no answer in it
(its `processRAGQuery` import is `undefined`), not an already-computed
answer. -/
theorem updateSessionActivity_absent_silent_drop :
    SessionRoutes.updateSessionActivity [] "missing" (some "What happened today?") none
        = (false, [])
    ∧ (ChatRoutes.postMessage [] "What happened today?" "missing").1
        = { status := 500, success := false, errorMsg := some "Failed to process message",
            responseBody := none }
    ∧ (ChatRoutes.postMessage [] "What happened today?" "missing").2 = [] := by
  exact ⟨rfl, rfl, rfl⟩

/-- C7: for a batch submitted to the embedding step, an upstream vector count
different from the article count fails the whole batch — every article of the
batch is recorded with `embedding: null` and the mismatch error, none is
stored with a vector; and on a matching count the vectors are paired with the
articles strictly by position, preserving input order. -/
theorem embedBatch_strict_cardinality (api : IngestNews.EmbApi)
    (batch : List IngestNews.NewsArticle) (embs : List (Option EmbVector))
    (hok : IngestNews.embed api (batch.map IngestNews.articleEmbedText) = .ok embs) :
    (embs.length ≠ batch.length →
      ∀ a ∈ IngestNews.processEmbeddingBatch api batch,
        a.embedding = none
        ∧ a.embeddingError = some (IngestNews.mismatchMsg embs.length batch.length))
    ∧ (embs.length = batch.length → ∀ j : Nat,
        ((IngestNews.processEmbeddingBatch api batch).get? j).map
            IngestNews.EmbeddedArticle.title
          = (batch.get? j).map IngestNews.NewsArticle.title
        ∧ ((IngestNews.processEmbeddingBatch api batch).get? j).map
            IngestNews.EmbeddedArticle.embedding
          = embs.get? j) := by
  have hstep : IngestNews.processEmbeddingBatch api batch =
      if embs.length ≠ batch.length then
        batch.map fun a =>
          { title := a.title, embedding := none,
            embeddingError := some (IngestNews.mismatchMsg embs.length batch.length) }
      else
        (batch.zip embs).map fun p =>
          match p.2 with
          | none => { title := p.1.title, embedding := none,
                      embeddingError := some IngestNews.invalidEmbMsg }
          | some v => { title := p.1.title, embedding := some v, embeddingError := none } := by
    unfold IngestNews.processEmbeddingBatch
    rw [hok]
  constructor
  · intro hne a ha
    rw [hstep, if_pos hne] at ha
    obtain ⟨b, _, rfl⟩ := List.mem_map.mp ha
    exact ⟨rfl, rfl⟩
  · intro heq j
    rw [hstep, if_neg (by simp [heq])]
    have hzip : (batch.zip embs).get? j
        = (Option.map Prod.mk (batch.get? j)).bind fun g => Option.map g (embs.get? j) :=
      List.get?_zipWith' Prod.mk batch embs j
    cases hb : batch.get? j with
    | none =>
      have hbl : batch.length ≤ j := List.get?_eq_none.mp hb
      have hel : embs.get? j = none := List.get?_eq_none.mpr (by omega)
      have hz2 : (batch.zip embs).get? j = none := by
        rw [hzip, hb]
        rfl
      constructor
      · rw [List.get?_eq_getElem?, List.getElem?_map, ← List.get?_eq_getElem?, hz2]
        rfl
      · rw [List.get?_eq_getElem?, List.getElem?_map, ← List.get?_eq_getElem?, hz2, hel]
        rfl
    | some a =>
      have hjl : j < batch.length := by
        by_contra hc
        rw [List.get?_eq_none.mpr (by omega)] at hb
        exact Option.noConfusion hb
      cases he : embs.get? j with
      | none =>
        have : embs.length ≤ j := List.get?_eq_none.mp he
        omega
      | some e =>
        have hz2 : (batch.zip embs).get? j = some (a, e) := by
          rw [hzip, hb, he]
          rfl
        constructor
        · rw [List.get?_eq_getElem?, List.getElem?_map, ← List.get?_eq_getElem?, hz2]
          cases e <;> rfl
        · rw [List.get?_eq_getElem?, List.getElem?_map, ← List.get?_eq_getElem?, hz2]
          cases e <;> rfl

/-- Witness for `embedBatch_strict_cardinality`: a two-article batch with a
matching upstream response; the second output article carries the second
upstream vector. -/
theorem embedBatch_strict_cardinality_witness :
    ((IngestNews.processEmbeddingBatch ⟨fun _ => .ok [some [10], some [30, 40]]⟩
        [⟨"t1", "s1", "c1"⟩, ⟨"t2", "s2", "c2"⟩]).get? 1).map
        IngestNews.EmbeddedArticle.embedding
      = some (some [30, 40]) := by
  have h := (embedBatch_strict_cardinality ⟨fun _ => .ok [some [10], some [30, 40]]⟩
      [⟨"t1", "s1", "c1"⟩, ⟨"t2", "s2", "c2"⟩] [some [10], some [30, 40]] rfl).2 rfl 1
  exact h.2.trans rfl

/-- Lookup after `mapSet`: the set key maps to the new value, others are
unchanged. -/
theorem mapLookup_mapSet_cases {α : Type} (m : List (String × α)) (k k' : String) (v : α) :
    mapLookup (mapSet m k v) k' = if k' = k then some v else mapLookup m k' := by
  induction m with
  | nil =>
    simp only [mapSet, mapLookup]
    by_cases h : k' = k
    · rw [if_pos h.symm, if_pos h]
    · rw [if_neg (fun hc => h hc.symm), if_neg h]
  | cons p rest ih =>
    obtain ⟨k0, v0⟩ := p
    by_cases h0 : k0 = k
    · simp only [mapSet, if_pos h0, mapLookup]
      by_cases h : k' = k
      · rw [if_pos h.symm, if_pos h]
      · rw [if_neg (fun hc => h hc.symm), if_neg h,
          if_neg (fun hc : k0 = k' => h (h0.symm.trans hc).symm)]
    · simp only [mapSet, if_neg h0, mapLookup]
      by_cases h1 : k0 = k'
      · rw [if_pos h1, if_neg (fun hc : k' = k => h0 (h1.trans hc)), if_pos h1]
      · rw [if_neg h1, ih]
        by_cases h : k' = k
        · rw [if_pos h, if_pos h]
        · rw [if_neg h, if_neg h, if_neg h1]

/-- Lookup survives deletion-by-value of an entry with a different value. -/
theorem mapLookup_deleteFirstValue (m : List (String × String)) (x T z : String)
    (hz : mapLookup m T = some z) (hne : z ≠ x) :
    mapLookup (mapDeleteFirstValue m x) T = some z := by
  induction m with
  | nil => exact Option.noConfusion hz
  | cons p rest ih =>
    obtain ⟨k, w⟩ := p
    by_cases hw : w = x
    · subst hw
      rw [mapDeleteFirstValue, if_pos rfl]
      rw [mapLookup] at hz
      by_cases hk : k = T
      · rw [if_pos hk] at hz
        exact absurd (Option.some.inj hz).symm hne
      · rw [if_neg hk] at hz
        exact hz
    · rw [mapDeleteFirstValue, if_neg hw, mapLookup]
      rw [mapLookup] at hz
      by_cases hk : k = T
      · rw [if_pos hk] at hz ⊢
        exact hz
      · rw [if_neg hk] at hz ⊢
        exact ih hz

/-- One session operation preserves the count invariant. -/
theorem applySessionOp_preserves_count (store : SessionRoutes.SessionStore)
    (op : SessionRoutes.SessionOp)
    (h : ∀ sid s, mapLookup store sid = some s → s.messageCount = s.messages.length) :
    ∀ sid s, mapLookup (SessionRoutes.applySessionOp store op) sid = some s →
      s.messageCount = s.messages.length := by
  intro sid s hl
  cases op with
  | create sid' =>
    rw [SessionRoutes.applySessionOp, SessionRoutes.createSession,
      mapLookup_mapSet_cases] at hl
    by_cases he : sid = sid'
    · rw [if_pos he] at hl
      cases hl
      rfl
    · rw [if_neg he] at hl
      exact h sid s hl
  | appendTurn sid' u b =>
    rw [SessionRoutes.applySessionOp, SessionRoutes.updateSessionActivity] at hl
    cases hs : mapLookup store sid' with
    | none =>
      rw [hs] at hl
      exact h sid s hl
    | some session =>
      rw [hs] at hl
      simp only [mapLookup_mapSet_cases] at hl
      by_cases he : sid = sid'
      · rw [if_pos he] at hl
        cases hl
        rfl
      · rw [if_neg he] at hl
        exact h sid s hl
  | clear sid' =>
    rw [SessionRoutes.applySessionOp, SessionRoutes.clearSession] at hl
    cases hs : mapLookup store sid' with
    | none =>
      rw [hs] at hl
      exact h sid s hl
    | some session =>
      rw [hs] at hl
      simp only [mapLookup_mapSet_cases] at hl
      by_cases he : sid = sid'
      · rw [if_pos he] at hl
        cases hl
        rfl
      · rw [if_neg he] at hl
        exact h sid s hl

/-- The count invariant holds after any operation sequence from a store that
satisfies it. -/
theorem runSessionOps_preserves_count (ops : List SessionRoutes.SessionOp) :
    ∀ (store : SessionRoutes.SessionStore),
      (∀ sid s, mapLookup store sid = some s → s.messageCount = s.messages.length) →
      ∀ sid s, mapLookup (ops.foldl SessionRoutes.applySessionOp store) sid = some s →
        s.messageCount = s.messages.length := by
  induction ops with
  | nil => exact fun store h => h
  | cons op rest ih =>
    intro store h
    exact ih (SessionRoutes.applySessionOp store op) (applySessionOp_preserves_count store op h)

/-- C10: in every session state reachable by any sequence of create, append
(`updateSessionActivity`) and clear operations, the stored `messageCount`
equals the length of the stored `messages` list. -/
theorem sessionStore_messageCount_invariant (ops : List SessionRoutes.SessionOp)
    (sid : String) (s : SessionRoutes.Session)
    (h : mapLookup (SessionRoutes.runSessionOps ops) sid = some s) :
    s.messageCount = s.messages.length :=
  runSessionOps_preserves_count ops [] (fun _ _ hl => Option.noConfusion hl) sid s h

/-- Witness for `sessionStore_messageCount_invariant` on a concrete operation
sequence. -/
theorem sessionStore_messageCount_invariant_witness :
    mapLookup (SessionRoutes.runSessionOps
        [.create "a", .appendTurn "a" (some "hi") (some "yo"), .clear "b"]) "a"
      = some { messages := [{ role := .user, content := some "hi" },
                            { role := .bot, content := some "yo" }], messageCount := 2 }
    ∧ (2 : Nat) = [SessionRoutes.ChatMessage.mk .user (some "hi"),
                   SessionRoutes.ChatMessage.mk .bot (some "yo")].length :=
  ⟨rfl, sessionStore_messageCount_invariant
    [.create "a", .appendTurn "a" (some "hi") (some "yo"), .clear "b"] "a"
    { messages := [{ role := .user, content := some "hi" },
                   { role := .bot, content := some "yo" }], messageCount := 2 } rfl⟩

/-- Membership in a session's delivery group is membership of the room pair. -/
theorem mem_deliveryGroup (st : SocketLayer.SockState) (S x : String) :
    x ∈ SocketLayer.deliveryGroup st S ↔ (S, x) ∈ st.rooms := by
  simp only [SocketLayer.deliveryGroup, List.mem_map, List.mem_filter, decide_eq_true_eq]
  constructor
  · rintro ⟨⟨p1, p2⟩, ⟨hp, h1⟩, h2⟩
    cases h1
    cases h2
    exact hp
  · intro hp
    exact ⟨(S, x), ⟨hp, rfl⟩, rfl⟩

/-- Every socket event preserves the binding/room invariant. -/
theorem sockInv_step (st : SocketLayer.SockState) (e : SocketLayer.SockEvent)
    (h : SocketLayer.SockInv st) : SocketLayer.SockInv (SocketLayer.applySockEvent st e) := by
  obtain ⟨ha, hb⟩ := h
  cases e with
  | connect sid =>
    by_cases hl : sid ∈ st.live
    · simpa [SocketLayer.applySockEvent, hl] using ⟨ha, hb⟩
    · refine ⟨?_, ?_⟩ <;> simp only [SocketLayer.applySockEvent, if_neg hl]
      · exact ha
      · exact fun S x hm => List.mem_cons_of_mem _ (hb S x hm)
  | joinSession sid sessionId =>
    by_cases hl : sid ∈ st.live
    · simp only [SocketLayer.applySockEvent, if_pos hl]
      constructor
      · intro T y hm
        rcases List.mem_cons.mp hm with he | hm2
        · cases he
          rw [mapLookup_mapSet_cases, if_pos rfl]
        · have hm1 : (T, y) ∈ st.rooms.filter fun p => p.2 ≠ sid := by
            cases hmatch : mapLookup st.connectedSessions sessionId with
            | none =>
              rw [hmatch] at hm2
              exact hm2
            | some ex =>
              simp only [hmatch] at hm2
              by_cases hex : ex ∈ st.live
              · rw [if_pos hex] at hm2
                exact (List.mem_filter.mp hm2).1
              · rw [if_neg hex] at hm2
                exact hm2
          have hroom : (T, y) ∈ st.rooms := (List.mem_filter.mp hm1).1
          by_cases hTS : T = sessionId
          · subst hTS
            exfalso
            have hlook : mapLookup st.connectedSessions T = some y := ha T y hroom
            have hylive : y ∈ st.live := hb T y hroom
            simp only [hlook] at hm2
            rw [if_pos hylive] at hm2
            have := (List.mem_filter.mp hm2).2
            rw [decide_eq_true_eq] at this
            exact this rfl
          · rw [mapLookup_mapSet_cases, if_neg hTS]
            exact ha T y hroom
      · intro T y hm
        rcases List.mem_cons.mp hm with he | hm2
        · cases he
          exact hl
        · have hm1 : (T, y) ∈ st.rooms.filter fun p => p.2 ≠ sid := by
            cases hmatch : mapLookup st.connectedSessions sessionId with
            | none =>
              rw [hmatch] at hm2
              exact hm2
            | some ex =>
              simp only [hmatch] at hm2
              by_cases hex : ex ∈ st.live
              · rw [if_pos hex] at hm2
                exact (List.mem_filter.mp hm2).1
              · rw [if_neg hex] at hm2
                exact hm2
          exact hb T y (List.mem_filter.mp hm1).1
    · simpa [SocketLayer.applySockEvent, hl] using ⟨ha, hb⟩
  | disconnect sid =>
    constructor
    · intro T z hm
      simp only [SocketLayer.applySockEvent] at hm
      have hz : (T, z) ∈ st.rooms ∧ z ≠ sid := by
        have := List.mem_filter.mp hm
        exact ⟨this.1, by simpa [decide_eq_true_eq] using this.2⟩
      exact mapLookup_deleteFirstValue st.connectedSessions sid T z (ha T z hz.1) hz.2
    · intro T z hm
      simp only [SocketLayer.applySockEvent] at hm ⊢
      have hz : (T, z) ∈ st.rooms ∧ z ≠ sid := by
        have := List.mem_filter.mp hm
        exact ⟨this.1, by simpa [decide_eq_true_eq] using this.2⟩
      exact (List.mem_erase_of_ne hz.2).mpr (hb T z hz.1)

/-- The invariant holds in every reachable socket state. -/
theorem sockInv_runSock (events : List SocketLayer.SockEvent) :
    SocketLayer.SockInv (SocketLayer.runSock events) := by
  have hgen : ∀ (es : List SocketLayer.SockEvent) (st : SocketLayer.SockState),
      SocketLayer.SockInv st → SocketLayer.SockInv (es.foldl SocketLayer.applySockEvent st) := by
    intro es
    induction es with
    | nil => exact fun st h => h
    | cons e rest ih => exact fun st h => ih _ (sockInv_step st e h)
  exact hgen events SocketLayer.initialSockState
    ⟨fun S x hm => absurd hm (List.not_mem_nil _), fun S x hm => absurd hm (List.not_mem_nil _)⟩

/-- C9: in every state reachable by socket events, at most one connection is in
a session's delivery group; and a later `join-session` for session `S` by a
live connection `y` evicts any previously bound connection `x` from `S`'s
delivery group, so subsequent emissions to the group no longer reach `x`. -/
theorem joinSession_single_binding (events : List SocketLayer.SockEvent) (S x y : String) :
    (∀ a b, (S, a) ∈ (SocketLayer.runSock events).rooms →
        (S, b) ∈ (SocketLayer.runSock events).rooms → a = b)
    ∧ (x ∈ SocketLayer.deliveryGroup (SocketLayer.runSock events) S →
        y ∈ (SocketLayer.runSock events).live → x ≠ y →
        x ∉ SocketLayer.deliveryGroup
          (SocketLayer.runSock (events ++ [SocketLayer.SockEvent.joinSession y S])) S) := by
  have hinv := sockInv_runSock events
  obtain ⟨ha, hb⟩ := hinv
  constructor
  · intro a b hma hmb
    have h1 := ha S a hma
    have h2 := ha S b hmb
    rw [h1] at h2
    exact Option.some.inj h2
  · intro hx hy hne
    rw [mem_deliveryGroup] at hx
    have hrun : SocketLayer.runSock (events ++ [SocketLayer.SockEvent.joinSession y S])
        = SocketLayer.applySockEvent (SocketLayer.runSock events)
            (SocketLayer.SockEvent.joinSession y S) := by
      unfold SocketLayer.runSock
      rw [List.foldl_append]
      rfl
    rw [hrun, mem_deliveryGroup]
    intro hmem
    have hlook : mapLookup (SocketLayer.runSock events).connectedSessions S = some x :=
      ha S x hx
    have hxlive : x ∈ (SocketLayer.runSock events).live := hb S x hx
    simp only [SocketLayer.applySockEvent, if_pos hy, hlook, if_pos hxlive] at hmem
    rcases List.mem_cons.mp hmem with he | hm2
    · exact hne (congrArg Prod.snd he)
    · have hfil := List.mem_filter.mp hm2
      rw [decide_eq_true_eq] at hfil
      exact hfil.2 rfl

/-- Witness for `joinSession_single_binding`: after `sockA` is bound to session
`sess`, a join by `sockB` removes `sockA` from the delivery group. -/
theorem joinSession_single_binding_witness :
    "sockA" ∉ SocketLayer.deliveryGroup
      (SocketLayer.runSock
        ([.connect "sockA", .connect "sockB", .joinSession "sockA" "sess"]
          ++ [SocketLayer.SockEvent.joinSession "sockB" "sess"])) "sess" :=
  (joinSession_single_binding
      [.connect "sockA", .connect "sockB", .joinSession "sockA" "sess"] "sess" "sockA"
      "sockB").2 (by decide) (by decide) (by decide)

/-- Every code point of a Lean `Char` is a Unicode scalar value below
`0x110000`. -/
theorem char_toNat_lt (c : Char) : c.toNat < 1114112 := by
  have h := c.valid
  rcases h with h | ⟨h1, h2⟩
  · exact Nat.lt_of_lt_of_le h (by norm_num)
  · exact h2

/-- Characters with equal code points are equal. -/
theorem char_toNat_inj {c d : Char} (h : c.toNat = d.toNat) : c = d :=
  Char.ext (UInt32.ext h)

/-- The UTF-8 encoding of a character is never empty. -/
theorem utf8EncodeChar_ne_nil (c : Char) : utf8EncodeChar c ≠ [] := by
  unfold utf8EncodeChar
  split_ifs <;> simp

/-- Unfolding `utf8Encode` on a cons. -/
theorem utf8Encode_cons (c : Char) (cs : List Char) :
    utf8Encode (c :: cs) = utf8EncodeChar c ++ utf8Encode cs := by
  simp [utf8Encode]

/-- UTF-8 bytes of a single character are bytes. -/
theorem utf8EncodeChar_lt (c : Char) (b : Nat) (hb : b ∈ utf8EncodeChar c) : b < 256 := by
  have hv := char_toNat_lt c
  unfold utf8EncodeChar at hb
  split_ifs at hb with h1 h2 h3
  · simp only [List.mem_cons, List.not_mem_nil, or_false] at hb
    omega
  · simp only [List.mem_cons, List.not_mem_nil, or_false] at hb
    rcases hb with hb | hb <;> omega
  · simp only [List.mem_cons, List.not_mem_nil, or_false] at hb
    rcases hb with hb | hb | hb <;> omega
  · simp only [List.mem_cons, List.not_mem_nil, or_false] at hb
    rcases hb with hb | hb | hb | hb <;> omega

/-- UTF-8 bytes of a string are bytes. -/
theorem utf8Encode_lt (l : List Char) : ∀ b ∈ utf8Encode l, b < 256 := by
  induction l with
  | nil => exact fun b hb => absurd hb (List.not_mem_nil b)
  | cons c cs ih =>
    intro b hb
    rw [utf8Encode_cons] at hb
    rcases List.mem_append.mp hb with h | h
    · exact utf8EncodeChar_lt c b h
    · exact ih b h

/-- The decoder undoes the single-character encoder in front of any
continuation. -/
theorem utf8DecodeOne_encodeChar (c : Char) (r : List Nat) :
    utf8DecodeOne (utf8EncodeChar c ++ r) = some (c.toNat, r) := by
  have hv := char_toNat_lt c
  by_cases h1 : c.toNat < 128
  · rw [utf8EncodeChar, if_pos h1]
    simp only [List.cons_append, List.nil_append, utf8DecodeOne, if_pos h1]
  · by_cases h2 : c.toNat < 2048
    · rw [utf8EncodeChar, if_neg h1, if_pos h2]
      have e1 : ¬(192 + c.toNat / 64 < 128) := by omega
      have e2 : 192 + c.toNat / 64 < 224 := by omega
      simp only [List.cons_append, List.nil_append, utf8DecodeOne, if_neg e1, if_pos e2]
      have harith : (192 + c.toNat / 64 - 192) * 64 + (128 + c.toNat % 64 - 128) = c.toNat := by
        omega
      rw [harith]
    · by_cases h3 : c.toNat < 65536
      · rw [utf8EncodeChar, if_neg h1, if_neg h2, if_pos h3]
        have e1 : ¬(224 + c.toNat / 4096 < 128) := by omega
        have e2 : ¬(224 + c.toNat / 4096 < 224) := by omega
        have e3 : 224 + c.toNat / 4096 < 240 := by omega
        simp only [List.cons_append, List.nil_append, utf8DecodeOne, if_neg e1, if_neg e2,
          if_pos e3]
        have harith : (224 + c.toNat / 4096 - 224) * 4096 + (128 + c.toNat / 64 % 64 - 128) * 64
            + (128 + c.toNat % 64 - 128) = c.toNat := by omega
        rw [harith]
      · rw [utf8EncodeChar, if_neg h1, if_neg h2, if_neg h3]
        have e1 : ¬(240 + c.toNat / 262144 < 128) := by omega
        have e2 : ¬(240 + c.toNat / 262144 < 224) := by omega
        have e3 : ¬(240 + c.toNat / 262144 < 240) := by omega
        simp only [List.cons_append, List.nil_append, utf8DecodeOne, if_neg e1, if_neg e2,
          if_neg e3]
        have harith : (240 + c.toNat / 262144 - 240) * 262144
            + (128 + c.toNat / 4096 % 64 - 128) * 4096
            + (128 + c.toNat / 64 % 64 - 128) * 64 + (128 + c.toNat % 64 - 128) = c.toNat := by
          omega
        rw [harith]

/-- UTF-8 encoding is injective on code-point lists. -/
theorem utf8Encode_inj (l1 : List Char) : ∀ (l2 : List Char),
    utf8Encode l1 = utf8Encode l2 → l1 = l2 := by
  induction l1 with
  | nil =>
    intro l2 h
    cases l2 with
    | nil => rfl
    | cons d ds =>
      exfalso
      rw [show utf8Encode [] = [] from rfl, utf8Encode_cons] at h
      exact utf8EncodeChar_ne_nil d (List.append_eq_nil.mp h.symm).1
  | cons c cs ih =>
    intro l2 h
    cases l2 with
    | nil =>
      exfalso
      rw [show utf8Encode [] = [] from rfl, utf8Encode_cons] at h
      exact utf8EncodeChar_ne_nil c (List.append_eq_nil.mp h).1
    | cons d ds =>
      rw [utf8Encode_cons, utf8Encode_cons] at h
      have hd := utf8DecodeOne_encodeChar c (utf8Encode cs)
      rw [h, utf8DecodeOne_encodeChar d (utf8Encode ds)] at hd
      have hpair := Option.some.inj hd
      have hvv : d.toNat = c.toNat := congrArg Prod.fst hpair
      have ht : utf8Encode ds = utf8Encode cs := congrArg Prod.snd hpair
      exact List.cons_eq_cons.mpr ⟨(char_toNat_inj hvv).symm, ih ds ht.symm⟩

/-- `b64CharVal` inverts `b64Char` on 6-bit values. -/
theorem b64CharVal_b64Char : ∀ n : Nat, n < 64 → b64CharVal (b64Char n) = n := by decide

/-- Alphabet characters are never the padding character. -/
theorem b64Char_ne_pad : ∀ n : Nat, n < 64 → b64Char n ≠ '=' := by decide

/-- The base64 decoder undoes the encoder on byte lists. -/
theorem b64decode_encode : ∀ (bs : List Nat), (∀ b ∈ bs, b < 256) →
    b64decode (b64encode bs) = some bs
  | [], _ => rfl
  | [b1], h => by
    have hb1 : b1 < 256 := h b1 (List.mem_singleton.mpr rfl)
    show b64decode [b64Char (b1 / 4), b64Char (b1 % 4 * 16), '=', '='] = some [b1]
    rw [b64decode, if_pos rfl, b64CharVal_b64Char _ (by omega), b64CharVal_b64Char _ (by omega)]
    have harith : b1 / 4 * 4 + b1 % 4 * 16 / 16 = b1 := by omega
    rw [harith]
  | [b1, b2], h => by
    have hb1 : b1 < 256 := h b1 (by simp)
    have hb2 : b2 < 256 := h b2 (by simp)
    show b64decode [b64Char (b1 / 4), b64Char (b1 % 4 * 16 + b2 / 16),
        b64Char (b2 % 16 * 4), '='] = some [b1, b2]
    rw [b64decode, if_neg (b64Char_ne_pad _ (by omega)), if_pos rfl,
      b64CharVal_b64Char _ (by omega), b64CharVal_b64Char _ (by omega),
      b64CharVal_b64Char _ (by omega)]
    have ha1 : b1 / 4 * 4 + (b1 % 4 * 16 + b2 / 16) / 16 = b1 := by omega
    have ha2 : (b1 % 4 * 16 + b2 / 16) % 16 * 16 + b2 % 16 * 4 / 4 = b2 := by omega
    rw [ha1, ha2]
  | b1 :: b2 :: b3 :: rest, h => by
    have hb1 : b1 < 256 := h b1 (by simp)
    have hb2 : b2 < 256 := h b2 (by simp)
    have hb3 : b3 < 256 := h b3 (by simp)
    have hrest : ∀ b ∈ rest, b < 256 := fun b hb => h b (by simp [hb])
    show b64decode (b64Char (b1 / 4) :: b64Char (b1 % 4 * 16 + b2 / 16) ::
        b64Char (b2 % 16 * 4 + b3 / 64) :: b64Char (b3 % 64) :: b64encode rest)
      = some (b1 :: b2 :: b3 :: rest)
    rw [b64decode, if_neg (b64Char_ne_pad _ (by omega)), if_neg (b64Char_ne_pad _ (by omega)),
      b64decode_encode rest hrest,
      b64CharVal_b64Char _ (by omega), b64CharVal_b64Char _ (by omega),
      b64CharVal_b64Char _ (by omega), b64CharVal_b64Char _ (by omega)]
    have ha1 : b1 / 4 * 4 + (b1 % 4 * 16 + b2 / 16) / 16 = b1 := by omega
    have ha2 : (b1 % 4 * 16 + b2 / 16) % 16 * 16 + (b2 % 16 * 4 + b3 / 64) / 4 = b2 := by
      omega
    have ha3 : (b2 % 16 * 4 + b3 / 64) % 4 * 64 + b3 % 64 = b3 := by omega
    rw [ha1, ha2, ha3]

/-- Base64 encoding is injective on byte lists. -/
theorem b64encode_inj (bs1 bs2 : List Nat) (h1 : ∀ b ∈ bs1, b < 256)
    (h2 : ∀ b ∈ bs2, b < 256) (he : b64encode bs1 = b64encode bs2) : bs1 = bs2 := by
  have d1 := b64decode_encode bs1 h1
  rw [he, b64decode_encode bs2 h2] at d1
  exact (Option.some.inj d1).symm

/-- Every alphabet character is printable ASCII (no control characters). -/
theorem b64Char_printable (n : Nat) : 32 ≤ (b64Char n).toNat ∧ (b64Char n).toNat < 127 := by
  by_cases h : n < 64
  · revert n
    decide
  · have hlen : b64Alphabet.length ≤ n := by
      have : b64Alphabet.length = 64 := by decide
      omega
    rw [b64Char, List.getD_eq_default _ _ hlen]
    decide

/-- Every character of a base64 encoding is printable ASCII. -/
theorem b64encode_printable : ∀ (bs : List Nat) (c : Char), c ∈ b64encode bs →
    32 ≤ c.toNat ∧ c.toNat < 127
  | [], c, hc => absurd hc (List.not_mem_nil c)
  | [b1], c, hc => by
    simp only [b64encode, List.mem_cons, List.not_mem_nil, or_false] at hc
    rcases hc with rfl | rfl | rfl | rfl
    · exact b64Char_printable _
    · exact b64Char_printable _
    · decide
    · decide
  | [b1, b2], c, hc => by
    simp only [b64encode, List.mem_cons, List.not_mem_nil, or_false] at hc
    rcases hc with rfl | rfl | rfl | rfl
    · exact b64Char_printable _
    · exact b64Char_printable _
    · exact b64Char_printable _
    · decide
  | b1 :: b2 :: b3 :: rest, c, hc => by
    simp only [b64encode, List.mem_cons] at hc
    rcases hc with rfl | rfl | rfl | rfl | hmem
    · exact b64Char_printable _
    · exact b64Char_printable _
    · exact b64Char_printable _
    · exact b64Char_printable _
    · exact b64encode_printable rest c hmem

/-- C6: two queries produce the same cache key exactly when they agree after
lowercasing and trimming; every key has the form `query:` followed by the
base64 encoding of the normalized query; and every key character is printable
ASCII — no control characters. -/
theorem getQueryCacheKey_normalization (q1 q2 : List Char) :
    (CacheService.getQueryCacheKey q1 = CacheService.getQueryCacheKey q2
      ↔ CacheService.normalizeQuery q1 = CacheService.normalizeQuery q2)
    ∧ CacheService.getQueryCacheKey q1
        = "query:".toList ++ b64encode (utf8Encode (CacheService.normalizeQuery q1))
    ∧ (∀ c ∈ CacheService.getQueryCacheKey q1, 32 ≤ c.toNat ∧ c.toNat < 127) := by
  refine ⟨⟨?_, ?_⟩, rfl, ?_⟩
  · intro h
    unfold CacheService.getQueryCacheKey at h
    have henc := List.append_cancel_left h
    have hutf := b64encode_inj _ _ (utf8Encode_lt _) (utf8Encode_lt _) henc
    exact utf8Encode_inj _ _ hutf
  · intro h
    unfold CacheService.getQueryCacheKey
    rw [h]
  · intro c hc
    unfold CacheService.getQueryCacheKey at hc
    rcases List.mem_append.mp hc with hq | hb
    · have hall : ∀ x ∈ "query:".toList, 32 ≤ x.toNat ∧ x.toNat < 127 := by decide
      exact hall c hq
    · exact b64encode_printable _ c hb

/-- Witness for `getQueryCacheKey_normalization`: the spec's example pair
shares one key, and a concrete key character is printable. -/
theorem getQueryCacheKey_normalization_witness :
    CacheService.getQueryCacheKey "Ukraine War?".toList
        = CacheService.getQueryCacheKey " ukraine war? ".toList
    ∧ (32 ≤ ('q' : Char).toNat ∧ ('q' : Char).toNat < 127) :=
  ⟨(getQueryCacheKey_normalization "Ukraine War?".toList " ukraine war? ".toList).1.mpr
      (by decide),
    (getQueryCacheKey_normalization "Ukraine War?".toList " ukraine war? ".toList).2.2 'q'
      (by decide)⟩
